import Mathlib

/- Formal model of src/buildenv.go: the configuration resolution and emission
   pipeline of the Buildenv tool.  External collaborators (the CLI flag parser,
   the YAML decoder, the Vault client transport and mlock) are modelled as
   oracles or parameters; everything else is translated from the source. -/

namespace Buildenv

/-- EnvErrorCode, exit code for a missing environment (buildenv.go line 21). -/
def EnvErrorCode : Nat := 2

/-- YamlErrorCode, exit code for YAML errors (line 24). -/
def YamlErrorCode : Nat := 5

/-- VaultErrorCode, exit code for Vault errors (line 27). -/
def VaultErrorCode : Nat := 6

/-- Exit code for an unreadable variables file (literal 4 at line 146). -/
def FileErrorCode : Nat := 4

/-- Go `type EnvVars map[string]string` (line 75), modelled as an association
    list with distinct keys; the list order stands for one map iteration
    order (Go map iteration order is unspecified). -/
abbrev EnvVars := List (String × String)

/-- Go `type Secrets map[string]string` (line 77): variable name to path. -/
abbrev Secrets := List (String × String)

/-- The anonymous V2 datacenter struct `{Vars, Secrets}` (lines 95-98). -/
structure DcConfig where
  vars : EnvVars := []
  secrets : Secrets := []
deriving DecidableEq

/-- The anonymous V2 environment struct (lines 92-99). -/
structure EnvConfig where
  vars : EnvVars := []
  secrets : Secrets := []
  dcs : List (String × DcConfig) := []
deriving DecidableEq

/-- `type Config struct` (lines 89-100), the V2 schema. -/
structure Config where
  vars : EnvVars := []
  secrets : Secrets := []
  environments : List (String × EnvConfig) := []
deriving DecidableEq

/-- The anonymous V1 environment struct (lines 82-86): `Dcs` maps a
    datacenter name directly to a flat vars mapping. -/
structure EnvConfigV1 where
  vars : EnvVars := []
  secrets : Secrets := []
  dcs : List (String × EnvVars) := []
deriving DecidableEq

/-- `type ConfigV1 struct` (lines 79-87), the legacy schema. -/
structure ConfigV1 where
  vars : EnvVars := []
  secrets : Secrets := []
  environments : List (String × EnvConfigV1) := []
deriving DecidableEq

/-- Go map indexing `m[k]`: the stored value when the key is present, the
    zero value `d` otherwise. -/
def lookupD {α : Type} : List (String × α) → String → α → α
  | [], _, d => d
  | (k', v) :: rest, k, d => if k' = k then v else lookupD rest k d

/-- Lowercase hex digit, as used by Go strconv quoting. -/
def hexDigit (n : Nat) : Char :=
  if n < 10 then Char.ofNat (48 + n) else Char.ofNat (87 + n)

/-- One character of Go `%q` output (fmt calls strconv.Quote): a double quote
    or backslash is backslash-escaped, printable characters pass through,
    control characters get named or hex escapes.  This model is exact for
    ASCII; non-ASCII printable runes pass through (escaping of non-printable
    non-ASCII runes is not modelled, no claim touches them). -/
def goQuoteChar (c : Char) : List Char :=
  if c = '"' then ['\\', '"']
  else if c = '\\' then ['\\', '\\']
  else if 0x20 ≤ c.toNat ∧ c.toNat ≤ 0x7e then [c]
  else if c.toNat = 7 then ['\\', 'a']
  else if c.toNat = 8 then ['\\', 'b']
  else if c.toNat = 12 then ['\\', 'f']
  else if c = '\n' then ['\\', 'n']
  else if c.toNat = 13 then ['\\', 'r']
  else if c = '\t' then ['\\', 't']
  else if c.toNat = 11 then ['\\', 'v']
  else if c.toNat < 0x20 ∨ c.toNat = 0x7f then
    ['\\', 'x', hexDigit (c.toNat / 16 % 16), hexDigit (c.toNat % 16)]
  else [c]

/-- Go `%q` applied to a string value: surrounding double quotes plus
    per-character escaping. -/
def goQuote (s : String) : String :=
  String.mk ('"' :: (s.data.map goQuoteChar).flatten ++ ['"'])

/-- Outcome of one Vault read as distinguished by GetVaultSecret
    (lines 46-65): client construction error, read error, missing record, or
    a record whose `Data` mapping is modelled as a string association list
    (the spec fixes the `value` attribute to be a string). -/
inductive VaultResponse
  | clientErr (msg : String)
  | readErr (msg : String)
  | missing
  | found (data : List (String × String))
deriving DecidableEq

/-- The secret store as seen by one run: a fixed response for every path. -/
abbrev VaultOracle := String → VaultResponse

/-- Whether a response is a successful record. -/
def isFound : VaultResponse → Bool
  | .found _ => true
  | _ => false

/-- The record of a successful response (zero record otherwise). -/
def respData : VaultResponse → List (String × String)
  | .found d => d
  | _ => []

/-- GetVaultSecret (lines 46-65): surfaces the three failure cases with the
    messages the code formats, otherwise returns the record. -/
def GetVaultSecret (oracle : VaultOracle) (path : String) :
    Except String (List (String × String)) :=
  match oracle path with
  | .clientErr e => .error ("Vault - Client Error: " ++ e)
  | .readErr e => .error ("Vault - Read Error: " ++ e)
  | .missing => .error ("Vault - No secret at path: " ++ path)
  | .found d => .ok d

/-- A run's observable outcome: the stdout lines in order, and on failure the
    exit error as (stderr message, exit code). -/
abbrev Out := List String × Option (String × Nat)

/-- Output-only step (a block of fmt.Println / fmt.Printf lines). -/
def pureOut (ls : List String) : Out := (ls, none)

/-- Sequential composition matching Go early `return`: once a step fails,
    later steps emit nothing. -/
def seqOut (a b : Out) : Out :=
  match a.2 with
  | some _ => a
  | none => (a.1 ++ b.1, b.2)

/-- One var line: `fmt.Printf("export %s=%q\n", k, v)` (lines 174, 190, 208,
    214). -/
def exportVar (k v : String) : String := "export " ++ k ++ "=" ++ goQuote v

/-- A vars bucket, one line per entry (map iteration modelled by the list). -/
def emitVars (vs : EnvVars) : List String := vs.map fun kv => exportVar kv.1 kv.2

/-- The `%q` rendering of `secret.Data["value"]`: the quoted string when the
    attribute is present, and fmt's bad-verb form `%!q(<nil>)` for the nil
    interface value of a missing key. -/
def secretValueQ (data : List (String × String)) : String :=
  match data.lookup "value" with
  | some v => goQuote v
  | none => "%!q(<nil>)"

/-- A secrets bucket (lines 178-185, 194-201, 218-225): fetch each path in
    order; on success print `export k=%q # path`, on the first failure return
    the Vault error with VaultErrorCode, emitting nothing further. -/
def emitSecrets (oracle : VaultOracle) (ss : Secrets) : Out :=
  match ss with
  | [] => ([], none)
  | (k, path) :: rest =>
    match GetVaultSecret oracle path with
    | .error e => ([], some (e, VaultErrorCode))
    | .ok d =>
      let r := emitSecrets oracle rest
      (("export " ++ k ++ "=" ++ secretValueQ d ++ " # " ++ path) :: r.1, r.2)

/-- The header block (lines 165-169): the datacenter line appears only when
    `dc` is non-empty. -/
def headerLines (env dc : String) : List String :=
  ["# Setting Variables for:", "# Environment: " ++ env] ++
    (if dc ≠ "" then ["# Datacenter: " ++ dc] else [])

/-- `config.Environments[env]` with Go zero-value semantics. -/
def envOf (config : Config) (env : String) : EnvConfig :=
  lookupD config.environments env {}

/-- `....Dcs[dc]` with Go zero-value semantics. -/
def dcOf (e : EnvConfig) (dc : String) : DcConfig := lookupD e.dcs dc {}

/-- Lines 165-201: header, global vars, global secrets, environment vars and
    environment secrets, in source order, with early return on a failing
    fetch. -/
def preDc (config : Config) (env dc : String) (oracle : VaultOracle) : Out :=
  seqOut (pureOut (headerLines env dc ++
      "# Global Vars:" :: emitVars config.vars ++ ["# Global Secrets:"]))
  (seqOut (emitSecrets oracle config.secrets)
  (seqOut (pureOut (("# Environment (" ++ env ++ ") Vars:") ::
      emitVars (envOf config env).vars ++
      ["# Environment (" ++ env ++ ") Secrets:"]))
    (emitSecrets oracle (envOf config env).secrets)))

/-- Lines 203-226: the datacenter section.  In the legacy branch the section
    appears only for non-empty `dc`, is labelled with `dc`, and has no
    secrets; in the V2 branch both subsections appear unconditionally and are
    labelled with `env`.  Both branches read the V2-typed `config` value. -/
def dcSection (legacy : Bool) (config : Config) (env dc : String)
    (oracle : VaultOracle) : Out :=
  if legacy then
    if dc ≠ "" then
      pureOut (("# Datacenter (" ++ dc ++ ") Specific Vars:") ::
        emitVars (dcOf (envOf config env) dc).vars)
    else pureOut []
  else
    seqOut (pureOut (("# Datacenter (" ++ env ++ ") Specific Vars:") ::
        emitVars (dcOf (envOf config env) dc).vars ++
        ["# Datacenter (" ++ env ++ ") Specific Secrets:"]))
      (emitSecrets oracle (dcOf (envOf config env) dc).secrets)

/-- Lines 165-228: the whole emission given the remembered `legacy` flag and
    the contents of the `config` variable. -/
def emit (legacy : Bool) (config : Config) (env dc : String)
    (oracle : VaultOracle) : Out :=
  seqOut (preDc config env dc oracle) (dcSection legacy config env dc oracle)

/-- The V1 translation of a V2 document, as constructed in claim C2: the
    same document with each datacenter value flattened to its plain vars
    mapping. -/
def translateV1 (c : Config) : ConfigV1 :=
  { vars := c.vars, secrets := c.secrets,
    environments := c.environments.map fun p =>
      (p.1, { vars := p.2.vars, secrets := p.2.secrets,
              dcs := p.2.dcs.map fun q => (q.1, q.2.vars) }) }

/-- Restriction of an environment to the layers both schemas share: the flat
    datacenter mappings of a V1 document decode into the V2 datacenter struct
    as the zero struct (their keys match no V2 field under lenient decode). -/
def residualEnv (e : EnvConfig) : EnvConfig :=
  { vars := e.vars, secrets := e.secrets,
    dcs := e.dcs.map fun q => (q.1, {}) }

/-- Modelled from the spec: the residual value that the lenient YAML decoder
    (an external collaborator, not code under src/) leaves in the V2-typed
    `config` variable when the first unmarshal of the flat V1 translation
    fails: the global and environment layers decode identically in both
    schemas, while each flat datacenter mapping leaves the zero dc struct. -/
def residualOfTranslation (c : Config) : Config :=
  { vars := c.vars, secrets := c.secrets,
    environments := c.environments.map fun p => (p.1, residualEnv p.2) }

/-- Modelled from the spec: `enableMlock` (called at line 136) is repository
    code outside buildenv.go; per the spec it is a best-effort process memory
    lock that writes nothing to stdout, so it is a no-op on the observable
    state modelled here. -/
def enableMlock (_ : Bool) : Unit := ()

/-- Modelled from the spec: the YAML decoder accepts the empty document into
    the V2 schema as the zero config. -/
def emptyDocV2 : Config := {}

/-- app.Action (lines 134-229).  The decode attempts are oracles:
    `v2res` is the result of the first unmarshal into the V2 `config`
    variable, `v1res` of the fallback unmarshal into `configV1`, and
    `leftoverV2` is what the failed first unmarshal left in `config`
    (yaml.v2 keeps decoding the fields it can).  Note that the source,
    after a successful fallback decode, never reads `configV1` again:
    emission always reads `config`, hence `leftoverV2` below. -/
def action (mlockBool : Bool) (env dc varsFile : String) (fileOk : Bool)
    (v2res : Option Config) (v1res : Except String ConfigV1)
    (leftoverV2 : Config) (oracle : VaultOracle) : Out :=
  let _u := enableMlock mlockBool
  if env = "" then ([], some ("environment is required", EnvErrorCode))
  else if fileOk = false then
    ([], some ("unable to read variable file " ++ varsFile, FileErrorCode))
  else
    match v2res with
    | some config => emit false config env dc oracle
    | none =>
      match v1res with
      | .error e => ([e], some ("unable to unmarshal yaml", YamlErrorCode))
      | .ok _ => emit true leftoverV2 env dc oracle

/-- A store with no failing paths. -/
def AllOk (o : VaultOracle) : Prop := ∀ p, isFound (o p) = true

/-- The lines a secrets bucket prints when every fetch succeeds. -/
def secretLines (o : VaultOracle) (ss : Secrets) : List String :=
  ss.map fun kp =>
    "export " ++ kp.1 ++ "=" ++ secretValueQ (respData (o kp.2)) ++ " # " ++ kp.2

/-- The full store `g` agrees with the partial store `f` wherever `f`
    succeeds. -/
def OracleLe (f g : VaultOracle) : Prop :=
  ∀ p d, f p = .found d → g p = .found d

/-- Outcome refinement: the first run's stdout is an initial segment of the
    second's, and if the first run did not fail they coincide. -/
def OutLe (a b : Out) : Prop :=
  (∃ t, a.1 ++ t = b.1) ∧ (a.2 = none → a = b)

/-- A document with no datacenter secrets anywhere. -/
def NoDcSecrets (c : Config) : Prop :=
  ∀ p ∈ c.environments, ∀ q ∈ p.2.dcs, q.2.secrets = []

/-- Two V2 configurations that are the same maps read in two iteration
    orders: each of the six buckets selected for `(env, dc)` is a permutation
    of its counterpart. -/
def BucketPermV2 (c1 c2 : Config) (env dc : String) : Prop :=
  c1.vars.Perm c2.vars ∧ c1.secrets.Perm c2.secrets ∧
  (envOf c1 env).vars.Perm (envOf c2 env).vars ∧
  (envOf c1 env).secrets.Perm (envOf c2 env).secrets ∧
  (dcOf (envOf c1 env) dc).vars.Perm (dcOf (envOf c2 env) dc).vars ∧
  (dcOf (envOf c1 env) dc).secrets.Perm (dcOf (envOf c2 env) dc).secrets

/-- A store that never answers, for runs whose config declares no secrets. -/
def noOracle : VaultOracle := fun _ => .missing

/-- A store answering every path with the record `{value: "v"}`. -/
def okOracle : VaultOracle := fun _ => .found [("value", "v")]

/-- Residual V2 value for the C1 failing input: the failed V2 unmarshal keeps
    the environment keys but the flat datacenter mapping leaves the zero dc
    struct. -/
def c1LeftoverV2 : Config :=
  { environments := [("dev", { dcs := [("us_east", {})] })] }

/-- The successful fallback V1 decode of the C1 failing input: flat
    datacenter vars under us_east. -/
def c1ConfigV1 : ConfigV1 :=
  { environments := [("dev",
      { dcs := [("us_east", [("secrets", "oops"), ("REGION", "us-east-1")])] })] }

/-- A small V2 document with one global var, for the C4 evaluation. -/
def c4Config : Config := { vars := [("GREETING", "hello")] }

/-- One V1 decode result for C4. -/
def c4V1A : ConfigV1 :=
  { environments := [("dev", { dcs := [("us_east", [("REGION", "us-east-1")])] })] }

/-- A different V1 decode result for C4 (other flat datacenter vars). -/
def c4V1B : ConfigV1 :=
  { environments := [("dev", { dcs := [("us_east", [("REGION", "eu-west-2")])] })] }

/-- A document with one global secret, for the C10 evaluation. -/
def c10Config : Config := { secrets := [("TOK", "/kv/t")] }

/-- A store whose records lack the `value` attribute, for C10. -/
def c10Oracle : VaultOracle := fun _ => .found [("other", "x")]

/-- A document with one environment and one named datacenter, for C5. -/
def c5Config : Config :=
  { environments := [("dev", { dcs := [("zone", { vars := [("Z", "1")] })] })] }

/-- A document whose only environment is `prod`, for C8. -/
def c8Config : Config :=
  { vars := [("G", "g")], secrets := [("S", "/s")],
    environments := [("prod", {})] }

/-- A document with two global secrets, for C3. -/
def c3Config : Config := { secrets := [("A", "/ok"), ("B", "/bad")] }

/-- A partial store for C3: only `/ok` resolves. -/
def c3PartOracle : VaultOracle :=
  fun p => if p = "/ok" then .found [("value", "x")] else .missing

/-- A full store for C3 agreeing with the partial one where it succeeds. -/
def c3FullOracle : VaultOracle :=
  fun p => if p = "/ok" then .found [("value", "x")] else .found [("value", "y")]

/-- A store for C9 where `/pa` resolves and `/pb` fails. -/
def c9Oracle : VaultOracle :=
  fun p => if p = "/pa" then .found [("value", "x")] else .readErr "boom"

/-- The C9 global-secrets map read in one iteration order. -/
def c9ConfigA : Config := { secrets := [("A", "/pa"), ("B", "/pb")] }

/-- The same map read in the other iteration order. -/
def c9ConfigB : Config := { secrets := [("B", "/pb"), ("A", "/pa")] }

/-- A two-var global bucket in one iteration order, for the C9 witness. -/
def c9OkA : Config := { vars := [("X", "1"), ("Y", "2")] }

/-- The same bucket in the other iteration order. -/
def c9OkB : Config := { vars := [("Y", "2"), ("X", "1")] }

/-- A V2 document with one datacenter var and no secrets, for C2. -/
def c2Config : Config :=
  { environments := [("dev",
      { dcs := [("us_east", { vars := [("REGION", "us-east-1")] })] })] }

theorem emitSecrets_allOk (o : VaultOracle) (ss : Secrets) (h : AllOk o) :
    emitSecrets o ss = (secretLines o ss, none) := by
  induction ss with
  | nil => rfl
  | cons kp rest ih =>
    obtain ⟨k, path⟩ := kp
    have hp := h path
    cases hop : o path <;> rw [hop] at hp <;> simp [isFound] at hp
    simp [emitSecrets, GetVaultSecret, hop, secretLines, respData, ih]

theorem seqOut_pure (ls : List String) (b : Out) :
    seqOut (pureOut ls) b = (ls ++ b.1, b.2) := rfl

theorem seqOut_none (ls : List String) (b : Out) :
    seqOut (ls, none) b = (ls ++ b.1, b.2) := rfl

theorem emit_false_allOk (cfg : Config) (env dc : String) (o : VaultOracle)
    (h : AllOk o) :
    emit false cfg env dc o =
      (headerLines env dc ++
        "# Global Vars:" :: emitVars cfg.vars ++
        "# Global Secrets:" :: secretLines o cfg.secrets ++
        ("# Environment (" ++ env ++ ") Vars:") :: emitVars (envOf cfg env).vars ++
        ("# Environment (" ++ env ++ ") Secrets:") ::
          secretLines o (envOf cfg env).secrets ++
        ("# Datacenter (" ++ env ++ ") Specific Vars:") ::
          emitVars (dcOf (envOf cfg env) dc).vars ++
        ("# Datacenter (" ++ env ++ ") Specific Secrets:") ::
          secretLines o (dcOf (envOf cfg env) dc).secrets, none) := by
  unfold emit preDc dcSection
  rw [emitSecrets_allOk o cfg.secrets h,
    emitSecrets_allOk o (envOf cfg env).secrets h,
    emitSecrets_allOk o (dcOf (envOf cfg env) dc).secrets h]
  simp [seqOut_pure, seqOut_none, pureOut, seqOut]

theorem emit_true_allOk (cfg : Config) (env dc : String) (o : VaultOracle)
    (h : AllOk o) :
    emit true cfg env dc o =
      (headerLines env dc ++
        "# Global Vars:" :: emitVars cfg.vars ++
        "# Global Secrets:" :: secretLines o cfg.secrets ++
        ("# Environment (" ++ env ++ ") Vars:") :: emitVars (envOf cfg env).vars ++
        ("# Environment (" ++ env ++ ") Secrets:") ::
          secretLines o (envOf cfg env).secrets ++
        (if dc ≠ "" then
          ("# Datacenter (" ++ dc ++ ") Specific Vars:") ::
            emitVars (dcOf (envOf cfg env) dc).vars
         else []), none) := by
  unfold emit preDc dcSection
  rw [emitSecrets_allOk o cfg.secrets h,
    emitSecrets_allOk o (envOf cfg env).secrets h]
  by_cases hdc : dc = "" <;> simp [seqOut_pure, seqOut_none, pureOut, seqOut, hdc]

theorem lookupD_eq_default_of_key_not_mem {α : Type} (m : List (String × α))
    (k : String) (d : α) (h : k ∉ m.map Prod.fst) : lookupD m k d = d := by
  induction m with
  | nil => rfl
  | cons kv rest ih =>
    obtain ⟨k', v⟩ := kv
    simp only [List.map_cons, List.mem_cons] at h
    push_neg at h
    have hne : ¬(k' = k) := fun hh => h.1 hh.symm
    simp only [lookupD, if_neg hne]
    exact ih h.2

theorem lookupD_mem {α : Type} (m : List (String × α)) (k : String) (d : α) :
    lookupD m k d = d ∨ (k, lookupD m k d) ∈ m := by
  induction m with
  | nil => exact .inl rfl
  | cons kv rest ih =>
    obtain ⟨k', v⟩ := kv
    by_cases hk : k' = k
    · subst hk
      simp [lookupD]
    · rcases ih with h | h
      · exact .inl (by simpa [lookupD, hk] using h)
      · exact .inr (by simp [lookupD, hk]; right; simpa [lookupD, hk] using h)

theorem lookupD_map {α β : Type} (f : α → β) (m : List (String × α))
    (k : String) (d : α) :
    lookupD (m.map fun p => (p.1, f p.2)) k (f d) = f (lookupD m k d) := by
  induction m with
  | nil => rfl
  | cons kv rest ih =>
    by_cases hk : kv.1 = k <;> simp [lookupD, hk, ih]

theorem outLe_refl (a : Out) : OutLe a a :=
  ⟨⟨[], List.append_nil _⟩, fun _ => rfl⟩

theorem outLe_seq {a a' b b' : Out} (ha : OutLe a a') (hb : OutLe b b') :
    OutLe (seqOut a b) (seqOut a' b') := by
  obtain ⟨⟨t, ht⟩, hae⟩ := ha
  obtain ⟨⟨u, hu⟩, hbe⟩ := hb
  cases ha2 : a.2 with
  | some pr =>
    refine ⟨?_, ?_⟩
    · cases ha'2 : a'.2 with
      | some pr' =>
        exact ⟨t, by simp [seqOut, ha2, ha'2, ht]⟩
      | none =>
        exact ⟨t ++ b'.1, by simp [seqOut, ha2, ha'2, ← List.append_assoc, ht]⟩
    · intro hcon
      simp [seqOut, ha2] at hcon
  | none =>
    have := hae ha2
    subst this
    refine ⟨⟨u, by simp [seqOut, ha2, List.append_assoc, hu]⟩, ?_⟩
    intro hnone
    simp only [seqOut, ha2] at hnone ⊢
    rw [hbe hnone]

theorem emitSecrets_oracleLe {f g : VaultOracle} (h : OracleLe f g)
    (ss : Secrets) : OutLe (emitSecrets f ss) (emitSecrets g ss) := by
  induction ss with
  | nil => exact outLe_refl _
  | cons kp rest ih =>
    obtain ⟨k, path⟩ := kp
    cases hfp : f path with
    | found d =>
      have hgp := h path d hfp
      obtain ⟨⟨t, ht⟩, he⟩ := ih
      refine ⟨⟨t, ?_⟩, ?_⟩
      · simp [emitSecrets, GetVaultSecret, hfp, hgp, ht]
      · intro hnone
        simp only [emitSecrets, GetVaultSecret, hfp, hgp] at hnone ⊢
        rw [he hnone]
    | clientErr e =>
      exact ⟨⟨(emitSecrets g ((k, path) :: rest)).1, by
        simp [emitSecrets, GetVaultSecret, hfp]⟩, by
        intro hcon; simp [emitSecrets, GetVaultSecret, hfp] at hcon⟩
    | readErr e =>
      exact ⟨⟨(emitSecrets g ((k, path) :: rest)).1, by
        simp [emitSecrets, GetVaultSecret, hfp]⟩, by
        intro hcon; simp [emitSecrets, GetVaultSecret, hfp] at hcon⟩
    | missing =>
      exact ⟨⟨(emitSecrets g ((k, path) :: rest)).1, by
        simp [emitSecrets, GetVaultSecret, hfp]⟩, by
        intro hcon; simp [emitSecrets, GetVaultSecret, hfp] at hcon⟩

theorem emit_oracleLe {f g : VaultOracle} (h : OracleLe f g) (legacy : Bool)
    (cfg : Config) (env dc : String) :
    OutLe (emit legacy cfg env dc f) (emit legacy cfg env dc g) := by
  unfold emit preDc dcSection
  cases legacy with
  | false =>
    exact outLe_seq
      (outLe_seq (outLe_refl _)
        (outLe_seq (emitSecrets_oracleLe h _)
          (outLe_seq (outLe_refl _) (emitSecrets_oracleLe h _))))
      (by simp only [Bool.false_eq_true, if_false]
          exact outLe_seq (outLe_refl _) (emitSecrets_oracleLe h _))
  | true =>
    exact outLe_seq
      (outLe_seq (outLe_refl _)
        (outLe_seq (emitSecrets_oracleLe h _)
          (outLe_seq (outLe_refl _) (emitSecrets_oracleLe h _))))
      (by simp only [if_true]; exact outLe_refl _)

theorem emitSecrets_errcode (o : VaultOracle) (ss : Secrets)
    (pr : String × Nat) (h : (emitSecrets o ss).2 = some pr) :
    pr.2 = VaultErrorCode := by
  induction ss with
  | nil => simp [emitSecrets] at h
  | cons kp rest ih =>
    obtain ⟨k, path⟩ := kp
    cases hfp : GetVaultSecret o path with
    | error e =>
      simp only [emitSecrets, hfp] at h
      cases h
      rfl
    | ok d =>
      simp only [emitSecrets, hfp] at h
      exact ih h

theorem seqOut_errcode {a b : Out} {pr : String × Nat} (c : Nat)
    (ha : ∀ q, a.2 = some q → q.2 = c) (hb : ∀ q, b.2 = some q → q.2 = c)
    (h : (seqOut a b).2 = some pr) : pr.2 = c := by
  cases ha2 : a.2 with
  | some q => exact ha pr (by simpa [seqOut, ha2] using h)
  | none => exact hb pr (by simpa [seqOut, ha2] using h)

theorem emit_errcode (legacy : Bool) (cfg : Config) (env dc : String)
    (o : VaultOracle) (pr : String × Nat)
    (h : (emit legacy cfg env dc o).2 = some pr) : pr.2 = VaultErrorCode := by
  unfold emit preDc dcSection at h
  refine seqOut_errcode VaultErrorCode ?_ ?_ h
  · intro q hq
    refine seqOut_errcode VaultErrorCode (by simp [pureOut]) ?_ hq
    intro q' hq'
    refine seqOut_errcode VaultErrorCode (emitSecrets_errcode o _) ?_ hq'
    intro q'' hq''
    exact seqOut_errcode VaultErrorCode (by simp [pureOut])
      (emitSecrets_errcode o _) hq''
  · intro q hq
    cases legacy with
    | false =>
      simp only [Bool.false_eq_true, if_false] at hq
      exact seqOut_errcode VaultErrorCode (by simp [pureOut])
        (emitSecrets_errcode o _) hq
    | true =>
      simp only [if_true] at hq
      by_cases hdc : dc = "" <;> simp [hdc, pureOut] at hq

theorem envOf_residual (c : Config) (env : String) :
    envOf (residualOfTranslation c) env = residualEnv (envOf c env) :=
  lookupD_map residualEnv c.environments env {}

theorem dcOf_residualEnv (e : EnvConfig) (dc : String) :
    dcOf (residualEnv e) dc = {} :=
  lookupD_map (fun _ => ({} : DcConfig)) e.dcs dc {}

theorem preDc_congr (c c' : Config) (env dc : String) (o : VaultOracle)
    (h1 : c'.vars = c.vars) (h2 : c'.secrets = c.secrets)
    (h3 : (envOf c' env).vars = (envOf c env).vars)
    (h4 : (envOf c' env).secrets = (envOf c env).secrets) :
    preDc c' env dc o = preDc c env dc o := by
  unfold preDc
  rw [h1, h2, h3, h4]

theorem dc_secrets_empty (c : Config) (env dc : String) (h : NoDcSecrets c) :
    (dcOf (envOf c env) dc).secrets = [] := by
  rcases lookupD_mem c.environments env {} with he | he
  · have h0 : envOf c env = {} := he
    rw [dcOf, h0]
    rfl
  · rcases lookupD_mem (envOf c env).dcs dc {} with hd | hd
    · have h0 : dcOf (envOf c env) dc = {} := hd
      rw [h0]
    · exact h _ he _ hd

theorem goQuoteChar_plain (c : Char) (h1 : 0x20 ≤ c.toNat)
    (h2 : c.toNat ≤ 0x7e) (h3 : c ≠ '"') (h4 : c ≠ '\\') :
    goQuoteChar c = [c] := by
  unfold goQuoteChar
  rw [if_neg h3, if_neg h4, if_pos ⟨h1, h2⟩]

theorem flatten_map_goQuoteChar (l : List Char)
    (h : ∀ c ∈ l, goQuoteChar c = [c]) :
    (l.map goQuoteChar).flatten = l := by
  induction l with
  | nil => rfl
  | cons c rest ih =>
    simp only [List.map_cons, List.flatten_cons, h c (List.mem_cons_self c rest)]
    rw [ih fun c' hc' => h c' (List.mem_cons_of_mem c hc')]
    rfl

theorem goQuote_plain (v : String)
    (h : ∀ c ∈ v.data, 0x20 ≤ c.toNat ∧ c.toNat ≤ 0x7e ∧ c ≠ '"' ∧ c ≠ '\\') :
    goQuote v = "\"" ++ v ++ "\"" := by
  unfold goQuote
  rw [flatten_map_goQuoteChar v.data fun c hc =>
    goQuoteChar_plain c (h c hc).1 (h c hc).2.1 (h c hc).2.2.1 (h c hc).2.2.2]
  obtain ⟨l⟩ := v
  rfl

/-- C7: with an empty environment name the run exits with code 2 and the
    message `environment is required`, prints nothing, and its outcome is
    independent of the variables file, of both decode results and of the
    secret store — the check precedes all file and network I/O. -/
theorem c7_env_required (m : Bool) (dc varsFile : String) (fileOk : Bool)
    (v2res : Option Config) (v1res : Except String ConfigV1)
    (leftoverV2 : Config) (oracle : VaultOracle) :
    action m "" dc varsFile fileOk v2res v1res leftoverV2 oracle =
      ([], some ("environment is required", EnvErrorCode)) := rfl

/-- C1: evaluation at the failing input: a document whose V2 decode fails at
    the datacenter value while its V1 decode succeeds with flat datacenter
    vars including REGION.  The run takes the legacy branch and emits the
    datacenter banner labelled with dc, but no datacenter var exports: it
    reads the residual V2 struct, never the decoded ConfigV1, whose flat
    mapping demonstrably holds the REGION entry. -/
theorem c1_code_eval :
    action false "dev" "us_east" "variables.yml" true none (.ok c1ConfigV1)
        c1LeftoverV2 noOracle =
      (["# Setting Variables for:", "# Environment: dev",
        "# Datacenter: us_east", "# Global Vars:", "# Global Secrets:",
        "# Environment (dev) Vars:", "# Environment (dev) Secrets:",
        "# Datacenter (us_east) Specific Vars:"], none) ∧
    lookupD (lookupD c1ConfigV1.environments "dev" {}).dcs "us_east" [] =
      [("secrets", "oops"), ("REGION", "us-east-1")] ∧
    "export REGION=\"us-east-1\"" ∉
      (action false "dev" "us_east" "variables.yml" true none (.ok c1ConfigV1)
        c1LeftoverV2 noOracle).1 := by
  refine ⟨rfl, rfl, ?_⟩
  decide

/-- C4: loader dispatch evaluated at concrete inputs: a successful V2 decode
    is used as V2 (its vars are exported under the V2 banners); when both
    decodes fail the run exits with YamlErrorCode 5 after echoing the V1
    decode error to stdout; the empty document is treated as V2; but the
    result of a successful fallback V1 decode is discarded — two V1 results
    that differ in their flat datacenter vars give identical runs. -/
theorem c4_code_eval :
    action false "dev" "" "vf" true (some c4Config) (.error "ignored") {}
        noOracle =
      (["# Setting Variables for:", "# Environment: dev", "# Global Vars:",
        "export GREETING=\"hello\"", "# Global Secrets:",
        "# Environment (dev) Vars:", "# Environment (dev) Secrets:",
        "# Datacenter (dev) Specific Vars:",
        "# Datacenter (dev) Specific Secrets:"], none) ∧
    action false "dev" "" "vf" true none (.error "yaml: unmarshal errors") {}
        noOracle =
      (["yaml: unmarshal errors"],
       some ("unable to unmarshal yaml", YamlErrorCode)) ∧
    action false "dev" "" "vf" true (some emptyDocV2) (.error "x") {} noOracle =
      (["# Setting Variables for:", "# Environment: dev", "# Global Vars:",
        "# Global Secrets:", "# Environment (dev) Vars:",
        "# Environment (dev) Secrets:", "# Datacenter (dev) Specific Vars:",
        "# Datacenter (dev) Specific Secrets:"], none) ∧
    action false "dev" "us_east" "vf" true none (.ok c4V1A) {} noOracle =
      action false "dev" "us_east" "vf" true none (.ok c4V1B) {} noOracle ∧
    c4V1A ≠ c4V1B := by
  refine ⟨rfl, rfl, rfl, rfl, ?_⟩
  decide

/-- C10: a fetched record whose Data mapping lacks the `value` attribute does
    not fail emission: the export line is printed with fmt's rendering of the
    nil value and the bucket continues with the remaining entries; a run
    containing such a secret exits with code 0. -/
theorem c10_missing_value (o : VaultOracle) (k path : String) (rest : Secrets)
    (d : List (String × String)) (hf : o path = .found d)
    (hv : d.lookup "value" = none) :
    emitSecrets o ((k, path) :: rest) =
      (("export " ++ k ++ "=" ++ "%!q(<nil>)" ++ " # " ++ path) ::
        (emitSecrets o rest).1, (emitSecrets o rest).2) ∧
    action false "dev" "" "vf" true (some c10Config) (.error "") {} c10Oracle =
      (["# Setting Variables for:", "# Environment: dev", "# Global Vars:",
        "# Global Secrets:", "export TOK=%!q(<nil>) # /kv/t",
        "# Environment (dev) Vars:", "# Environment (dev) Secrets:",
        "# Datacenter (dev) Specific Vars:",
        "# Datacenter (dev) Specific Secrets:"], none) := by
  constructor
  · simp only [emitSecrets, GetVaultSecret, hf, secretValueQ, hv]
  · rfl

theorem c10_missing_value_witness :
    (c10Oracle "/kv/t" = .found [("other", "x")] ∧
      ([("other", "x")] : List (String × String)).lookup "value" = none) ∧
    emitSecrets c10Oracle [("K", "/kv/t")] =
      (["export K=%!q(<nil>) # /kv/t"], none) := by
  refine ⟨⟨rfl, rfl⟩, ?_⟩
  rw [(c10_missing_value c10Oracle "K" "/kv/t" [] [("other", "x")] rfl rfl).1]
  rfl

/-- C6 counterexample: a value containing a double quote is escaped by Go %q:
    the emitted line is `export K="a\"b"`, not the claim's unescaped
    `export K="a"b"`. -/
theorem c6_counterexample :
    emitVars [("K", "a\"b")] = ["export K=\"a\\\"b\""] ∧
    emitVars [("K", "a\"b")] ≠ ["export K=\"a\"b\""] := by
  refine ⟨rfl, ?_⟩
  decide

/-- C6 amended: emitted values are surrounded by double quotes via Go %q,
    which escapes an embedded double quote (and backslash) instead of copying
    it raw; values made of printable ASCII with neither of those two
    characters — `$` included — do pass through verbatim, for var lines and
    for resolved secret values alike. -/
theorem c6_amended (k v : String)
    (h : ∀ c ∈ v.data, 0x20 ≤ c.toNat ∧ c.toNat ≤ 0x7e ∧ c ≠ '"' ∧ c ≠ '\\') :
    exportVar k v = "export " ++ k ++ "=" ++ ("\"" ++ v ++ "\"") ∧
    secretValueQ [("value", v)] = "\"" ++ v ++ "\"" ∧
    goQuote "a\"b" = "\"a\\\"b\"" := by
  refine ⟨?_, ?_, rfl⟩
  · rw [exportVar, goQuote_plain v h]
  · have h0 : secretValueQ [("value", v)] = goQuote v := rfl
    rw [h0, goQuote_plain v h]

theorem c6_amended_witness :
    (∀ c ∈ ("pa$$word" : String).data,
      0x20 ≤ c.toNat ∧ c.toNat ≤ 0x7e ∧ c ≠ '"' ∧ c ≠ '\\') ∧
    exportVar "K" "pa$$word" = "export K=\"pa$$word\"" := by
  refine ⟨by decide, ?_⟩
  rw [(c6_amended "K" "pa$$word" (by decide)).1]
  rfl

/-- C5: in V2 mode the two datacenter banners are labelled with the
    environment name, and both datacenter sections are emitted whether or not
    dc is empty; the datacenter buckets are looked up by dc, a key absent
    from the respective mapping yielding the zero (empty) bucket. -/
theorem c5_dc_banner (cfg : Config) (env dc : String) (o : VaultOracle)
    (h : AllOk o) :
    emit false cfg env dc o =
      (headerLines env dc ++
        "# Global Vars:" :: emitVars cfg.vars ++
        "# Global Secrets:" :: secretLines o cfg.secrets ++
        ("# Environment (" ++ env ++ ") Vars:") :: emitVars (envOf cfg env).vars ++
        ("# Environment (" ++ env ++ ") Secrets:") ::
          secretLines o (envOf cfg env).secrets ++
        ("# Datacenter (" ++ env ++ ") Specific Vars:") ::
          emitVars (dcOf (envOf cfg env) dc).vars ++
        ("# Datacenter (" ++ env ++ ") Specific Secrets:") ::
          secretLines o (dcOf (envOf cfg env) dc).secrets, none) ∧
    (env ∉ cfg.environments.map Prod.fst → envOf cfg env = {}) ∧
    (dc ∉ (envOf cfg env).dcs.map Prod.fst → dcOf (envOf cfg env) dc = {}) :=
  ⟨emit_false_allOk cfg env dc o h,
   fun he => by unfold envOf; exact lookupD_eq_default_of_key_not_mem _ env {} he,
   fun hd => by unfold dcOf; exact lookupD_eq_default_of_key_not_mem _ dc {} hd⟩

theorem c5_dc_banner_witness :
    AllOk okOracle ∧
    emit false c5Config "dev" "" okOracle =
      (["# Setting Variables for:", "# Environment: dev", "# Global Vars:",
        "# Global Secrets:", "# Environment (dev) Vars:",
        "# Environment (dev) Secrets:", "# Datacenter (dev) Specific Vars:",
        "# Datacenter (dev) Specific Secrets:"], none) := by
  have hok : AllOk okOracle := fun _ => rfl
  refine ⟨hok, ?_⟩
  rw [(c5_dc_banner c5Config "dev" "" okOracle hok).1]
  rfl

/-- C8: an environment name absent from the document's environments mapping
    yields empty environment and datacenter buckets (banner lines only, no
    exports) and, with every fetched secret resolving, the run finishes
    without error, in both V2 and legacy modes; likewise a datacenter name
    absent from an environment's dcs mapping yields the zero datacenter
    bucket. -/
theorem c8_absent_layers (cfg : Config) (env dc : String) (o : VaultOracle)
    (h : AllOk o) (henv : env ∉ cfg.environments.map Prod.fst) :
    emit false cfg env dc o =
      (headerLines env dc ++
        "# Global Vars:" :: emitVars cfg.vars ++
        "# Global Secrets:" :: secretLines o cfg.secrets ++
        [("# Environment (" ++ env ++ ") Vars:"),
         ("# Environment (" ++ env ++ ") Secrets:"),
         ("# Datacenter (" ++ env ++ ") Specific Vars:"),
         ("# Datacenter (" ++ env ++ ") Specific Secrets:")], none) ∧
    emit true cfg env dc o =
      (headerLines env dc ++
        "# Global Vars:" :: emitVars cfg.vars ++
        "# Global Secrets:" :: secretLines o cfg.secrets ++
        [("# Environment (" ++ env ++ ") Vars:"),
         ("# Environment (" ++ env ++ ") Secrets:")] ++
        (if dc ≠ "" then [("# Datacenter (" ++ dc ++ ") Specific Vars:")]
         else []), none) ∧
    ∀ cfg' env', dc ∉ (envOf cfg' env').dcs.map Prod.fst →
      dcOf (envOf cfg' env') dc = {} := by
  have h0 : envOf cfg env = {} := by
    unfold envOf
    exact lookupD_eq_default_of_key_not_mem _ env {} henv
  refine ⟨?_, ?_,
    fun cfg' env' hd => by
      unfold dcOf
      exact lookupD_eq_default_of_key_not_mem _ dc {} hd⟩
  · rw [emit_false_allOk cfg env dc o h, h0]
    simp [emitVars, secretLines, dcOf, lookupD]
  · rw [emit_true_allOk cfg env dc o h, h0]
    by_cases hdc : dc = "" <;> simp [hdc, emitVars, secretLines, dcOf, lookupD]

theorem c8_absent_layers_witness :
    (AllOk okOracle ∧ "dev" ∉ c8Config.environments.map Prod.fst) ∧
    emit false c8Config "dev" "xy" okOracle =
      (["# Setting Variables for:", "# Environment: dev", "# Datacenter: xy",
        "# Global Vars:", "export G=\"g\"", "# Global Secrets:",
        "export S=\"v\" # /s", "# Environment (dev) Vars:",
        "# Environment (dev) Secrets:", "# Datacenter (dev) Specific Vars:",
        "# Datacenter (dev) Specific Secrets:"], none) := by
  have hok : AllOk okOracle := fun _ => rfl
  have hne : "dev" ∉ c8Config.environments.map Prod.fst := by decide
  refine ⟨⟨hok, hne⟩, ?_⟩
  rw [(c8_absent_layers c8Config "dev" "xy" okOracle hok hne).1]
  rfl

/-- C3: every failure during emission carries exit code VaultErrorCode 6 and
    stops the output (lines already printed remain); against any full store g
    that agrees with the partial store f wherever f succeeds, the partial
    run's stdout is a prefix of the full run's, an error-free partial run
    coincides with the full one, and the prefix property carries through
    app.Action. -/
theorem c3_fail_fast (legacy : Bool) (cfg : Config) (env dc : String)
    (f g : VaultOracle) (hle : OracleLe f g) :
    (∀ pr, (emit legacy cfg env dc f).2 = some pr → pr.2 = VaultErrorCode) ∧
    (∃ t, (emit legacy cfg env dc f).1 ++ t = (emit legacy cfg env dc g).1) ∧
    ((emit legacy cfg env dc f).2 = none →
      emit legacy cfg env dc f = emit legacy cfg env dc g) ∧
    ∀ (m : Bool) (vf : String) (fo : Bool) (v2 : Option Config)
      (v1 : Except String ConfigV1) (lo : Config),
      ∃ t, (action m env dc vf fo v2 v1 lo f).1 ++ t =
        (action m env dc vf fo v2 v1 lo g).1 := by
  have hemit := emit_oracleLe hle legacy cfg env dc
  refine ⟨fun pr hpr => emit_errcode legacy cfg env dc f pr hpr,
    hemit.1, hemit.2, ?_⟩
  intro m vf fo v2 v1 lo
  by_cases he : env = ""
  · exact ⟨[], by simp [action, he]⟩
  · by_cases hfo : fo = false
    · exact ⟨[], by simp [action, he, hfo]⟩
    · cases v2 with
      | some cfg' =>
        have h2 := (emit_oracleLe hle false cfg' env dc).1
        obtain ⟨t, ht⟩ := h2
        exact ⟨t, by simpa [action, he, hfo] using ht⟩
      | none =>
        cases v1 with
        | error e => exact ⟨[], by simp [action, he, hfo]⟩
        | ok c1 =>
          have h2 := (emit_oracleLe hle true lo env dc).1
          obtain ⟨t, ht⟩ := h2
          exact ⟨t, by simpa [action, he, hfo] using ht⟩

theorem c3_fail_fast_witness :
    OracleLe c3PartOracle c3FullOracle ∧
    (∀ pr, (emit false c3Config "dev" "" c3PartOracle).2 = some pr →
      pr.2 = VaultErrorCode) ∧
    (∃ t, (emit false c3Config "dev" "" c3PartOracle).1 ++ t =
      (emit false c3Config "dev" "" c3FullOracle).1) ∧
    (emit false c3Config "dev" "" c3PartOracle).2 =
      some ("Vault - No secret at path: /bad", VaultErrorCode) := by
  have hle : OracleLe c3PartOracle c3FullOracle := by
    intro p d hfd
    by_cases hp : p = "/ok"
    · simpa [c3PartOracle, c3FullOracle, hp] using hfd
    · simp [c3PartOracle, hp] at hfd
  have h := c3_fail_fast false c3Config "dev" "" c3PartOracle c3FullOracle hle
  exact ⟨hle, h.1, h.2.1, rfl⟩

/-- C9 counterexample: the two configs hold the same global-secrets map read
    in two iteration orders and the store is fixed, yet because one fetch
    fails the two runs' stdout differs by more than within-bucket reordering:
    one run contains an export line the other lacks (they are not even
    permutations of one another), so stdout is not byte-identical up to
    bucket iteration order. -/
theorem c9_counterexample :
    BucketPermV2 c9ConfigA c9ConfigB "dev" "" ∧
    emit false c9ConfigA "dev" "" c9Oracle =
      (["# Setting Variables for:", "# Environment: dev", "# Global Vars:",
        "# Global Secrets:", "export A=\"x\" # /pa"],
       some ("Vault - Read Error: boom", VaultErrorCode)) ∧
    emit false c9ConfigB "dev" "" c9Oracle =
      (["# Setting Variables for:", "# Environment: dev", "# Global Vars:",
        "# Global Secrets:"], some ("Vault - Read Error: boom", VaultErrorCode)) ∧
    ¬ (emit false c9ConfigA "dev" "" c9Oracle).1.Perm
        (emit false c9ConfigB "dev" "" c9Oracle).1 := by
  refine ⟨⟨List.Perm.refl _, List.Perm.swap _ _ _, List.Perm.refl _,
    List.Perm.refl _, List.Perm.refl _, List.Perm.refl _⟩, rfl, rfl, ?_⟩
  intro hp
  have hlen := hp.length_eq
  exact absurd hlen (by decide)

/-- C9 amended: provided every secret fetch succeeds, two runs over the same
    maps in different bucket iteration orders produce the same banner
    skeleton and exit status, and within each of the six buckets' sections
    the export lines are permutations of one another; with a failing fetch
    the aborted bucket's printed lines may differ beyond reordering. -/
theorem c9_amended (c1 c2 : Config) (env dc : String) (o : VaultOracle)
    (h : AllOk o) (hbp : BucketPermV2 c1 c2 env dc) :
    emit false c1 env dc o =
      (headerLines env dc ++
        "# Global Vars:" :: emitVars c1.vars ++
        "# Global Secrets:" :: secretLines o c1.secrets ++
        ("# Environment (" ++ env ++ ") Vars:") :: emitVars (envOf c1 env).vars ++
        ("# Environment (" ++ env ++ ") Secrets:") ::
          secretLines o (envOf c1 env).secrets ++
        ("# Datacenter (" ++ env ++ ") Specific Vars:") ::
          emitVars (dcOf (envOf c1 env) dc).vars ++
        ("# Datacenter (" ++ env ++ ") Specific Secrets:") ::
          secretLines o (dcOf (envOf c1 env) dc).secrets, none) ∧
    emit false c2 env dc o =
      (headerLines env dc ++
        "# Global Vars:" :: emitVars c2.vars ++
        "# Global Secrets:" :: secretLines o c2.secrets ++
        ("# Environment (" ++ env ++ ") Vars:") :: emitVars (envOf c2 env).vars ++
        ("# Environment (" ++ env ++ ") Secrets:") ::
          secretLines o (envOf c2 env).secrets ++
        ("# Datacenter (" ++ env ++ ") Specific Vars:") ::
          emitVars (dcOf (envOf c2 env) dc).vars ++
        ("# Datacenter (" ++ env ++ ") Specific Secrets:") ::
          secretLines o (dcOf (envOf c2 env) dc).secrets, none) ∧
    (emitVars c1.vars).Perm (emitVars c2.vars) ∧
    (secretLines o c1.secrets).Perm (secretLines o c2.secrets) ∧
    (emitVars (envOf c1 env).vars).Perm (emitVars (envOf c2 env).vars) ∧
    (secretLines o (envOf c1 env).secrets).Perm
      (secretLines o (envOf c2 env).secrets) ∧
    (emitVars (dcOf (envOf c1 env) dc).vars).Perm
      (emitVars (dcOf (envOf c2 env) dc).vars) ∧
    (secretLines o (dcOf (envOf c1 env) dc).secrets).Perm
      (secretLines o (dcOf (envOf c2 env) dc).secrets) := by
  obtain ⟨p1, p2, p3, p4, p5, p6⟩ := hbp
  exact ⟨emit_false_allOk c1 env dc o h, emit_false_allOk c2 env dc o h,
    p1.map _, p2.map _, p3.map _, p4.map _, p5.map _, p6.map _⟩

theorem c9_amended_witness :
    (AllOk okOracle ∧ BucketPermV2 c9OkA c9OkB "dev" "") ∧
    (emitVars c9OkA.vars).Perm (emitVars c9OkB.vars) ∧
    emitVars c9OkA.vars = ["export X=\"1\"", "export Y=\"2\""] ∧
    emitVars c9OkB.vars = ["export Y=\"2\"", "export X=\"1\""] := by
  have hok : AllOk okOracle := fun _ => rfl
  have hbp : BucketPermV2 c9OkA c9OkB "dev" "" :=
    ⟨List.Perm.swap _ _ _, List.Perm.refl _, List.Perm.refl _,
     List.Perm.refl _, List.Perm.refl _, List.Perm.refl _⟩
  exact ⟨⟨hok, hbp⟩,
    (c9_amended c9OkA c9OkB "dev" "" okOracle hok hbp).2.2.1, rfl, rfl⟩

/-- C2 counterexample: for a V2 document with one datacenter var and no
    secrets at all, the run on the V1 translation is not the V2 run with the
    datacenter-secrets banner line removed: the datacenter banner is labelled
    differently (us_east versus dev) and the REGION export is missing. -/
theorem c2_counterexample :
    (action false "dev" "us_east" "vf" true (some c2Config) (.error "x") {}
        noOracle).1 =
      ["# Setting Variables for:", "# Environment: dev",
       "# Datacenter: us_east", "# Global Vars:", "# Global Secrets:",
       "# Environment (dev) Vars:", "# Environment (dev) Secrets:",
       "# Datacenter (dev) Specific Vars:", "export REGION=\"us-east-1\"",
       "# Datacenter (dev) Specific Secrets:"] ∧
    (action false "dev" "us_east" "vf" true none (.ok (translateV1 c2Config))
        (residualOfTranslation c2Config) noOracle).1 =
      ["# Setting Variables for:", "# Environment: dev",
       "# Datacenter: us_east", "# Global Vars:", "# Global Secrets:",
       "# Environment (dev) Vars:", "# Environment (dev) Secrets:",
       "# Datacenter (us_east) Specific Vars:"] ∧
    (action false "dev" "us_east" "vf" true none (.ok (translateV1 c2Config))
        (residualOfTranslation c2Config) noOracle).1 ≠
      ((action false "dev" "us_east" "vf" true (some c2Config) (.error "x") {}
        noOracle).1).erase "# Datacenter (dev) Specific Secrets:" := by
  refine ⟨rfl, rfl, ?_⟩
  decide

/-- C2 amended: for every V2 document with no datacenter secrets, the V2 run
    and the run on its V1 translation agree exactly up through the
    environment-secrets bucket (including any secret failure there); they
    differ only in the datacenter section: the V2 run always appends a vars
    banner labelled with env, the datacenter var exports and a secrets banner
    labelled with env, while the legacy run appends — only when dc is
    non-empty — a vars banner labelled with dc and no exports, because the
    decoded flat mapping is discarded and the residual V2 decode has empty
    datacenter buckets. -/
theorem c2_amended (cfg : Config) (env dc vf : String) (o : VaultOracle)
    (v1junk : Except String ConfigV1) (lo : Config)
    (henv : env ≠ "") (hnds : NoDcSecrets cfg) :
    action false env dc vf true (some cfg) v1junk lo o =
      seqOut (preDc cfg env dc o)
        (pureOut (("# Datacenter (" ++ env ++ ") Specific Vars:") ::
          emitVars (dcOf (envOf cfg env) dc).vars ++
          ["# Datacenter (" ++ env ++ ") Specific Secrets:"])) ∧
    action false env dc vf true none (.ok (translateV1 cfg))
        (residualOfTranslation cfg) o =
      seqOut (preDc cfg env dc o)
        (pureOut (if dc ≠ "" then
          ["# Datacenter (" ++ dc ++ ") Specific Vars:"] else [])) := by
  constructor
  · have hred : action false env dc vf true (some cfg) v1junk lo o =
        emit false cfg env dc o := by
      simp [action, henv]
    rw [hred]
    unfold emit
    congr 1
    unfold dcSection
    rw [dc_secrets_empty cfg env dc hnds]
    simp [seqOut, pureOut, emitSecrets]
  · have hred : action false env dc vf true none (.ok (translateV1 cfg))
        (residualOfTranslation cfg) o =
        emit true (residualOfTranslation cfg) env dc o := by
      simp [action, henv]
    rw [hred]
    unfold emit
    have hpre : preDc (residualOfTranslation cfg) env dc o =
        preDc cfg env dc o := by
      apply preDc_congr
      · rfl
      · rfl
      · rw [envOf_residual]
        rfl
      · rw [envOf_residual]
        rfl
    rw [hpre]
    congr 1
    unfold dcSection
    rw [envOf_residual, dcOf_residualEnv]
    by_cases hdc : dc = "" <;> simp [hdc, pureOut, emitVars]

theorem c2_amended_witness :
    (("dev" : String) ≠ "" ∧ NoDcSecrets c2Config) ∧
    action false "dev" "us_east" "vf" true none (.ok (translateV1 c2Config))
        (residualOfTranslation c2Config) noOracle =
      seqOut (preDc c2Config "dev" "us_east" noOracle)
        (pureOut ["# Datacenter (us_east) Specific Vars:"]) := by
  have h1 : ("dev" : String) ≠ "" := by decide
  have h2 : NoDcSecrets c2Config := by
    unfold NoDcSecrets
    decide
  refine ⟨⟨h1, h2⟩, ?_⟩
  rw [(c2_amended c2Config "dev" "us_east" "vf" noOracle (.error "x") {}
    h1 h2).2]
  rfl

end Buildenv
